import Mathlib

/-!
Verification development for the reaction subsystem of the article-hub backend.

The embedding models the reaction routes of the Express router
(`src/unnamed/part_002`), the aggregation query of
`src/routes/articles.js` (GET /:id), the body-validation middleware
(`src/middleware/validation.js`, `reactionSchemas.create`) and the
relational schema (`src/database/schema.sql`).

A reaction table row is `{id, subj, user, kind}`: for `article_reactions`
`subj` is the article id, for `comment_reactions` the comment id.  The
schema declares `UNIQUE(article_id, user_id, reaction_id)` (and likewise
for comments), i.e. the unique key INCLUDES the reaction kind.  SQL
statements are modelled one-for-one: each `db.query(...)` of a handler is
one atomic action on the table; a handler is their sequential composition.
-/

namespace ArticleHub

/-- One row of `article_reactions` / `comment_reactions`:
`(id SERIAL, subj, user_id, reaction_id)`; `created_at` is irrelevant to
the verified behaviour and omitted. -/
structure Row where
  id : Nat
  subj : Nat
  user : Nat
  kind : Nat
deriving DecidableEq, Repr

/-- A reaction table: its rows plus the SERIAL counter for fresh `id`s. -/
structure Table where
  rows : List Row
  nextId : Nat
deriving DecidableEq, Repr

/-- The `WHERE article_id = $1 AND user_id = $2` filter shared by the
SELECT of existing reactions and the DELETE statements. -/
def matchesPair (s u : Nat) (r : Row) : Bool :=
  r.subj == s && r.user == u

/-- `SELECT ... FROM article_reactions WHERE article_id = $1 AND user_id = $2`. -/
def userRows (t : Table) (s u : Nat) : List Row :=
  t.rows.filter (matchesPair s u)

/-- `INSERT INTO article_reactions (article_id, user_id, reaction_id) VALUES ($1,$2,$3)`
(unchecked: used where the preceding handler statements guarantee the
UNIQUE key cannot collide). -/
def insertRow (t : Table) (s u k : Nat) : Table :=
  { rows := t.rows ++ [⟨t.nextId, s, u, k⟩], nextId := t.nextId + 1 }

/-- `DELETE FROM article_reactions WHERE article_id = $1 AND user_id = $2`
— note: not filtered by reaction kind. -/
def deleteUserRows (t : Table) (s u : Nat) : Table :=
  { t with rows := t.rows.filter (fun r => !(matchesPair s u r)) }

/-- The schema `UNIQUE(article_id, user_id, reaction_id)` predicate: an
insert of `(s, u, k)` collides iff a row with the SAME kind already exists
for that subject and user. -/
def uniqueConflict (t : Table) (s u k : Nat) : Bool :=
  t.rows.any (fun r => r.subj == s && r.user == u && r.kind == k)

/-- Outcome of the POST (assign) handlers, by HTTP response:
404 subject/kind missing, 400 already assigned, 201 added, 201 changed. -/
inductive AssignOutcome where
  | notFound
  | alreadyAssigned
  | inserted (kind : Nat)
  | replaced (oldKind newKind : Nat)
deriving DecidableEq, Repr

/-- Outcome of the DELETE (remove) handlers, by HTTP response:
404 subject missing, 404 no reaction row deleted, 200 removed. -/
inductive RemoveOutcome where
  | subjectMissing
  | nothingToRemove
  | removed
deriving DecidableEq, Repr

/-- The body of `router.post(/article/:articleId)` (and the identical
comment variant) after authentication and body validation:
check subject exists, check kind exists, select the existing rows of the user,
reject when `rows[0].reaction_id == reaction_id`, otherwise delete the
rows of the user when any exist and insert the new one. -/
def assignCore (subjects catalog : List Nat) (t : Table) (s u k : Nat) :
    AssignOutcome × Table :=
  if s ∈ subjects then
    if k ∈ catalog then
      match userRows t s u with
      | [] => (.inserted k, insertRow t s u k)
      | r :: _ =>
        if r.kind == k then
          (.alreadyAssigned, t)
        else
          (.replaced r.kind k, insertRow (deleteUserRows t s u) s u k)
    else (.notFound, t)
  else (.notFound, t)

/-- The body of `router.delete(/article/:articleId)` (and the identical
comment variant): check subject exists, run
`DELETE ... WHERE article_id AND user_id RETURNING id`, answer 404 when
nothing came back. -/
def removeCore (subjects : List Nat) (t : Table) (s u : Nat) :
    RemoveOutcome × Table :=
  if s ∈ subjects then
    let returned := userRows t s u
    let t' := deleteUserRows t s u
    if returned = [] then (.nothingToRemove, t')
    else (.removed, t')
  else (.subjectMissing, t)

/-- The current assignment of the user on a subject, read as the handlers do:
`rows[0].reaction_id` of the SELECT, or absent. -/
def getAssignment (t : Table) (s u : Nat) : Option Nat :=
  (userRows t s u).head?.map Row.kind

/-- The database state the reaction routes touch: existing article ids,
existing comment ids, the reaction catalog (kind ids of the `reactions`
table), and the two reaction tables. -/
structure DB where
  articles : List Nat
  comments : List Nat
  catalog : List Nat
  articleReactions : Table
  commentReactions : Table
deriving Repr

def assignArticleReaction (db : DB) (a u k : Nat) : AssignOutcome × DB :=
  let (o, t) := assignCore db.articles db.catalog db.articleReactions a u k
  (o, { db with articleReactions := t })

def assignCommentReaction (db : DB) (c u k : Nat) : AssignOutcome × DB :=
  let (o, t) := assignCore db.comments db.catalog db.commentReactions c u k
  (o, { db with commentReactions := t })

def removeArticleReaction (db : DB) (a u : Nat) : RemoveOutcome × DB :=
  let (o, t) := removeCore db.articles db.articleReactions a u
  (o, { db with articleReactions := t })

def removeCommentReaction (db : DB) (c u : Nat) : RemoveOutcome × DB :=
  let (o, t) := removeCore db.comments db.commentReactions c u
  (o, { db with commentReactions := t })

/-- One reaction operation, as dispatched by the router. -/
inductive Op where
  | assignArticle (a u k : Nat)
  | removeArticle (a u : Nat)
  | assignComment (c u k : Nat)
  | removeComment (c u : Nat)
deriving DecidableEq, Repr

def applyOp (db : DB) : Op → DB
  | .assignArticle a u k => (assignArticleReaction db a u k).2
  | .removeArticle a u => (removeArticleReaction db a u).2
  | .assignComment c u k => (assignCommentReaction db c u k).2
  | .removeComment c u => (removeCommentReaction db c u).2

/-- Sequential execution of a list of reaction operations, each handler
running to completion before the next starts. -/
def execTrace (db : DB) : List Op → DB
  | [] => db
  | op :: rest => execTrace (applyOp db op) rest

/-- At most one row per (subject, user) pair: the uniqueness
invariant of the spec on the row list of one table. -/
def atMostOnePerUser (l : List Row) : Prop :=
  l.Pairwise (fun a b => ¬(a.subj = b.subj ∧ a.user = b.user))

instance : DecidablePred atMostOnePerUser := fun l =>
  List.instDecidablePairwise l

/-- The invariant over the whole reaction state. -/
def Inv (db : DB) : Prop :=
  atMostOnePerUser db.articleReactions.rows ∧
  atMostOnePerUser db.commentReactions.rows

instance : DecidablePred Inv := fun _ => instDecidableAnd

/-! ### Aggregation (read path) -/

/-- One entry of the aggregation result of GET /api/articles/:id:
reaction kind, its count on the subject, and whether the requesting
identity holds it. -/
structure AggRow where
  kind : Nat
  count : Nat
  userReacted : Bool
deriving DecidableEq, Repr

/-- The reactionsQuery of `router.get(/:id)` in `src/routes/articles.js`:
`reactions r LEFT JOIN article_reactions ar ON r.id = ar.reaction_id AND
ar.article_id = $subj`, grouped by kind in catalog order; `COUNT(ar.id)`
counts the rows of the subject with that kind; `user_reacted` is
`MAX(CASE WHEN ar.user_id = $requester THEN 1 ELSE 0 END)` when a
requesting identity is present and the literal `0` otherwise. -/
def aggregateReactions (catalog : List Nat) (t : Table) (s : Nat)
    (requester : Option Nat) : List AggRow :=
  catalog.map (fun k =>
    { kind := k
      count := (t.rows.filter (fun r => r.kind == k && r.subj == s)).length
      userReacted :=
        match requester with
        | some u => t.rows.any (fun r => r.kind == k && r.subj == s && r.user == u)
        | none => false })

/-! ### Body validation and the DELETE routes -/

/-- `reactionSchemas.create` of `src/middleware/validation.js`: the request body field
reaction_id must be a positive integer
(`Joi.number().integer().positive().required()`). -/
def reactionBodyValid (reactionId : Int) : Bool := 0 < reactionId

/-- DELETE /api/reactions/article/:articleId as routed: the
`validate(reactionSchemas.create)` middleware rejects an invalid body
(`none` = 400 validation error), then the handler runs — and never reads
the reaction_id of the body. -/
def removeArticleRoute (db : DB) (a u : Nat) (bodyReactionId : Int) :
    Option (RemoveOutcome × DB) :=
  if reactionBodyValid bodyReactionId then some (removeArticleReaction db a u)
  else none

/-- DELETE /api/reactions/comment/:commentId, same shape. -/
def removeCommentRoute (db : DB) (c u : Nat) (bodyReactionId : Int) :
    Option (RemoveOutcome × DB) :=
  if reactionBodyValid bodyReactionId then some (removeCommentReaction db c u)
  else none

/-! ### Interleaved execution of two assign requests

The handlers run their SQL statements without any transaction, so under
concurrency the statements of two requests interleave; each single
`db.query` is atomic.  A `Session` is one in-flight assign request after
its subject/kind existence checks, reduced to its three table statements:
SELECT the existing rows, DELETE the rows of the pair, INSERT the new row.  The
INSERT enforces the schema key `UNIQUE(article_id, user_id, reaction_id)`
key via `uniqueConflict`. -/

inductive SessPhase where
  | toSelect
  | toDelete
  | toInsert
  | finished (out : AssignOutcome)
  | conflictError
deriving DecidableEq, Repr

structure Session where
  subj : Nat
  user : Nat
  kind : Nat
  oldKind : Option Nat
  phase : SessPhase
deriving DecidableEq, Repr

def mkSession (s u k : Nat) : Session := ⟨s, u, k, none, .toSelect⟩

/-- One atomic SQL statement of an assign request. -/
def stepSession (t : Table) (ss : Session) : Table × Session :=
  match ss.phase with
  | .toSelect =>
    match userRows t ss.subj ss.user with
    | [] => (t, { ss with phase := .toInsert })
    | r :: _ =>
      if r.kind == ss.kind then
        (t, { ss with phase := .finished .alreadyAssigned })
      else
        (t, { ss with oldKind := some r.kind, phase := .toDelete })
  | .toDelete => (deleteUserRows t ss.subj ss.user, { ss with phase := .toInsert })
  | .toInsert =>
    if uniqueConflict t ss.subj ss.user ss.kind then
      (t, { ss with phase := .conflictError })
    else
      let out : AssignOutcome :=
        match ss.oldKind with
        | none => .inserted ss.kind
        | some k0 => .replaced k0 ss.kind
      (insertRow t ss.subj ss.user ss.kind, { ss with phase := .finished out })
  | .finished _ => (t, ss)
  | .conflictError => (t, ss)

/-- Run two sessions under an explicit schedule: `false` steps the first
request, `true` the second. -/
def runSched : Table → Session → Session → List Bool → Table × Session × Session
  | t, s1, s2, [] => (t, s1, s2)
  | t, s1, s2, false :: rest =>
    let p := stepSession t s1
    runSched p.1 p.2 s2 rest
  | t, s1, s2, true :: rest =>
    let p := stepSession t s2
    runSched p.1 s1 p.2 rest

/-! ### Basic lemmas about the table primitives -/

theorem userRows_eq_nil_iff (t : Table) (s u : Nat) :
    userRows t s u = [] ↔ ∀ r ∈ t.rows, ¬(r.subj = s ∧ r.user = u) := by
  simp [userRows, List.filter_eq_nil_iff, matchesPair]

theorem userRows_insertRow (t : Table) (s u k : Nat) :
    userRows (insertRow t s u k) s u =
      userRows t s u ++ [⟨t.nextId, s, u, k⟩] := by
  simp [userRows, insertRow, matchesPair]

theorem userRows_deleteUserRows (t : Table) (s u : Nat) :
    userRows (deleteUserRows t s u) s u = [] := by
  simp only [userRows, deleteUserRows, List.filter_filter]
  rw [List.filter_eq_nil_iff]
  intro r _
  simp

theorem deleteUserRows_nextId (t : Table) (s u : Nat) :
    (deleteUserRows t s u).nextId = t.nextId := rfl

theorem atMostOnePerUser_filter (l : List Row) (p : Row → Bool)
    (h : atMostOnePerUser l) : atMostOnePerUser (l.filter p) :=
  h.sublist (List.filter_sublist l)

theorem atMostOnePerUser_append_single (l : List Row) (i s u k : Nat)
    (h : atMostOnePerUser l) (hn : ∀ r ∈ l, ¬(r.subj = s ∧ r.user = u)) :
    atMostOnePerUser (l ++ [⟨i, s, u, k⟩]) := by
  rw [atMostOnePerUser, List.pairwise_append]
  refine ⟨h, List.pairwise_singleton _ _, ?_⟩
  intro a ha b hb
  have hb' : b = ⟨i, s, u, k⟩ := by simpa using hb
  subst hb'
  exact hn a ha

theorem insertRow_preserves_of_empty (t : Table) (s u k : Nat)
    (h : atMostOnePerUser t.rows) (he : userRows t s u = []) :
    atMostOnePerUser (insertRow t s u k).rows := by
  have hn := (userRows_eq_nil_iff t s u).1 he
  exact atMostOnePerUser_append_single _ _ _ _ _ h hn

theorem deleteUserRows_preserves (t : Table) (s u : Nat)
    (h : atMostOnePerUser t.rows) :
    atMostOnePerUser (deleteUserRows t s u).rows :=
  atMostOnePerUser_filter _ _ h

theorem replace_preserves (t : Table) (s u k : Nat)
    (h : atMostOnePerUser t.rows) :
    atMostOnePerUser (insertRow (deleteUserRows t s u) s u k).rows := by
  have h1 : atMostOnePerUser (deleteUserRows t s u).rows :=
    deleteUserRows_preserves t s u h
  have hn : ∀ r ∈ (deleteUserRows t s u).rows, ¬(r.subj = s ∧ r.user = u) := by
    intro r hr
    simp only [deleteUserRows, List.mem_filter] at hr
    have := hr.2
    simp [matchesPair] at this
    tauto
  exact atMostOnePerUser_append_single _ _ _ _ _ h1 hn

/-! ### Branch equations for the handlers -/

theorem assignCore_of_no_subject (subjects catalog : List Nat) (t : Table)
    (s u k : Nat) (hs : s ∉ subjects) :
    assignCore subjects catalog t s u k = (.notFound, t) := by
  simp [assignCore, hs]

theorem assignCore_of_no_kind (subjects catalog : List Nat) (t : Table)
    (s u k : Nat) (hk : k ∉ catalog) :
    assignCore subjects catalog t s u k = (.notFound, t) := by
  by_cases hs : s ∈ subjects <;> simp [assignCore, hs, hk]

theorem assignCore_of_absent (subjects catalog : List Nat) (t : Table)
    (s u k : Nat) (hs : s ∈ subjects) (hk : k ∈ catalog)
    (he : userRows t s u = []) :
    assignCore subjects catalog t s u k = (.inserted k, insertRow t s u k) := by
  simp [assignCore, hs, hk, he]

theorem assignCore_of_same_kind (subjects catalog : List Nat) (t : Table)
    (s u k : Nat) (r : Row) (rest : List Row)
    (hs : s ∈ subjects) (hk : k ∈ catalog)
    (he : userRows t s u = r :: rest) (hkind : r.kind = k) :
    assignCore subjects catalog t s u k = (.alreadyAssigned, t) := by
  simp [assignCore, hs, hk, he, hkind]

theorem assignCore_of_other_kind (subjects catalog : List Nat) (t : Table)
    (s u k : Nat) (r : Row) (rest : List Row)
    (hs : s ∈ subjects) (hk : k ∈ catalog)
    (he : userRows t s u = r :: rest) (hkind : r.kind ≠ k) :
    assignCore subjects catalog t s u k =
      (.replaced r.kind k, insertRow (deleteUserRows t s u) s u k) := by
  simp [assignCore, hs, hk, he, hkind]

theorem removeCore_of_no_subject (subjects : List Nat) (t : Table)
    (s u : Nat) (hs : s ∉ subjects) :
    removeCore subjects t s u = (.subjectMissing, t) := by
  simp [removeCore, hs]

theorem removeCore_of_absent (subjects : List Nat) (t : Table) (s u : Nat)
    (hs : s ∈ subjects) (he : userRows t s u = []) :
    removeCore subjects t s u = (.nothingToRemove, deleteUserRows t s u) := by
  simp [removeCore, hs, he]

theorem removeCore_of_present (subjects : List Nat) (t : Table) (s u : Nat)
    (hs : s ∈ subjects) (he : userRows t s u ≠ []) :
    removeCore subjects t s u = (.removed, deleteUserRows t s u) := by
  simp [removeCore, hs, he]

/-! ### Invariant preservation -/

theorem assignCore_preserves (subjects catalog : List Nat) (t : Table)
    (s u k : Nat) (h : atMostOnePerUser t.rows) :
    atMostOnePerUser (assignCore subjects catalog t s u k).2.rows := by
  by_cases hs : s ∈ subjects
  · by_cases hk : k ∈ catalog
    · rcases he : userRows t s u with _ | ⟨r, rest⟩
      · rw [assignCore_of_absent subjects catalog t s u k hs hk he]
        exact insertRow_preserves_of_empty t s u k h he
      · by_cases hkind : r.kind = k
        · rw [assignCore_of_same_kind subjects catalog t s u k r rest hs hk he hkind]
          exact h
        · rw [assignCore_of_other_kind subjects catalog t s u k r rest hs hk he hkind]
          exact replace_preserves t s u k h
    · rw [assignCore_of_no_kind subjects catalog t s u k hk]
      exact h
  · rw [assignCore_of_no_subject subjects catalog t s u k hs]
    exact h

theorem removeCore_preserves (subjects : List Nat) (t : Table) (s u : Nat)
    (h : atMostOnePerUser t.rows) :
    atMostOnePerUser (removeCore subjects t s u).2.rows := by
  by_cases hs : s ∈ subjects
  · rcases he : userRows t s u with _ | ⟨r, rest⟩
    · rw [removeCore_of_absent subjects t s u hs he]
      exact deleteUserRows_preserves t s u h
    · rw [removeCore_of_present subjects t s u hs (by simp [he])]
      exact deleteUserRows_preserves t s u h
  · rw [removeCore_of_no_subject subjects t s u hs]
    exact h

theorem applyOp_preserves (db : DB) (op : Op) (h : Inv db) :
    Inv (applyOp db op) := by
  obtain ⟨ha, hc⟩ := h
  cases op with
  | assignArticle a u k =>
    exact ⟨assignCore_preserves db.articles db.catalog db.articleReactions a u k ha, hc⟩
  | removeArticle a u =>
    exact ⟨removeCore_preserves db.articles db.articleReactions a u ha, hc⟩
  | assignComment c u k =>
    exact ⟨ha, assignCore_preserves db.comments db.catalog db.commentReactions c u k hc⟩
  | removeComment c u =>
    exact ⟨ha, removeCore_preserves db.comments db.commentReactions c u hc⟩

theorem execTrace_preserves (db : DB) (ops : List Op) (h : Inv db) :
    Inv (execTrace db ops) := by
  induction ops generalizing db with
  | nil => exact h
  | cons op rest ih => exact ih _ (applyOp_preserves db op h)

/-! ### Lookup lemmas -/

theorem getAssignment_eq_none_iff (t : Table) (s u : Nat) :
    getAssignment t s u = none ↔ userRows t s u = [] := by
  cases h : userRows t s u <;> simp [getAssignment, h]

theorem getAssignment_eq_some (t : Table) (s u k0 : Nat)
    (h : getAssignment t s u = some k0) :
    ∃ r rest, userRows t s u = r :: rest ∧ r.kind = k0 := by
  cases he : userRows t s u with
  | nil => simp [getAssignment, he] at h
  | cons r rest =>
    refine ⟨r, rest, rfl, ?_⟩
    simpa [getAssignment, he] using h

theorem userRows_after_fresh_insert (t : Table) (s u k : Nat)
    (he : userRows t s u = []) :
    userRows (insertRow t s u k) s u = [⟨t.nextId, s, u, k⟩] := by
  rw [userRows_insertRow, he]
  rfl

theorem userRows_after_replace_insert (t : Table) (s u k : Nat) :
    userRows (insertRow (deleteUserRows t s u) s u k) s u =
      [⟨t.nextId, s, u, k⟩] := by
  rw [userRows_insertRow, userRows_deleteUserRows]
  rfl

/-! ### Claim theorems -/

/-- C1: every sequential execution of the reaction operations — assign and
remove, on articles and on comments — starting from a state satisfying the
at-most-one-assignment-per-(subjectType, subjectId, userId) invariant,
preserves that invariant: after each single operation and after any finite
trace of operations the invariant still holds. -/
theorem invariant_preserved_by_sequential_traces (db : DB) (ops : List Op)
    (op : Op) (h : Inv db) :
    Inv (applyOp db op) ∧ Inv (execTrace db ops) :=
  ⟨applyOp_preserves db op h, execTrace_preserves db ops h⟩

theorem invariant_preserved_by_sequential_traces_witness :
    Inv ⟨[1], [10], [1, 2, 3], ⟨[], 1⟩, ⟨[], 1⟩⟩ ∧
    (Inv (applyOp ⟨[1], [10], [1, 2, 3], ⟨[], 1⟩, ⟨[], 1⟩⟩ (.assignArticle 1 1 1)) ∧
     Inv (execTrace ⟨[1], [10], [1, 2, 3], ⟨[], 1⟩, ⟨[], 1⟩⟩
       [.assignArticle 1 1 1, .assignArticle 1 1 2, .assignComment 10 2 3,
        .removeArticle 1 1, .assignArticle 1 1 2])) :=
  ⟨by decide,
   invariant_preserved_by_sequential_traces _
     [.assignArticle 1 1 1, .assignArticle 1 1 2, .assignComment 10 2 3,
      .removeArticle 1 1, .assignArticle 1 1 2]
     (.assignArticle 1 1 1) (by decide)⟩

/-- C2: with the subject and the requested kind valid, the assign handler
decides by a three-way case analysis on the existing assignment of the user:
absent → inserted (a new row is created); same kind → alreadyAssigned with
the state unchanged; different kind → replaced.  Consequently assigning
the same kind twice yields inserted and then alreadyAssigned. -/
theorem assign_three_way_decision (subjects catalog : List Nat) (t : Table)
    (s u k : Nat) (hs : s ∈ subjects) (hk : k ∈ catalog) :
    (getAssignment t s u = none →
      assignCore subjects catalog t s u k = (.inserted k, insertRow t s u k)) ∧
    (∀ k0, getAssignment t s u = some k0 → k0 = k →
      assignCore subjects catalog t s u k = (.alreadyAssigned, t)) ∧
    (∀ k0, getAssignment t s u = some k0 → k0 ≠ k →
      (assignCore subjects catalog t s u k).1 = .replaced k0 k) ∧
    (getAssignment t s u = none →
      (assignCore subjects catalog t s u k).1 = .inserted k ∧
      (assignCore subjects catalog
        (assignCore subjects catalog t s u k).2 s u k).1 = .alreadyAssigned) := by
  refine ⟨?_, ?_, ?_, ?_⟩
  · intro h0
    exact assignCore_of_absent subjects catalog t s u k hs hk
      ((getAssignment_eq_none_iff t s u).1 h0)
  · intro k0 hsome hkk
    obtain ⟨r, rest, he, hrk⟩ := getAssignment_eq_some t s u k0 hsome
    exact assignCore_of_same_kind subjects catalog t s u k r rest hs hk he
      (hrk.trans hkk)
  · intro k0 hsome hkk
    obtain ⟨r, rest, he, hrk⟩ := getAssignment_eq_some t s u k0 hsome
    rw [assignCore_of_other_kind subjects catalog t s u k r rest hs hk he
      (by rw [hrk]; exact hkk)]
    simp [hrk]
  · intro h0
    have he := (getAssignment_eq_none_iff t s u).1 h0
    have h1 := assignCore_of_absent subjects catalog t s u k hs hk he
    have he1 : userRows (insertRow t s u k) s u = [⟨t.nextId, s, u, k⟩] :=
      userRows_after_fresh_insert t s u k he
    have ht1 : (assignCore subjects catalog t s u k).2 = insertRow t s u k := by
      rw [h1]
    refine ⟨by rw [h1], ?_⟩
    rw [ht1, assignCore_of_same_kind subjects catalog (insertRow t s u k) s u k
      ⟨t.nextId, s, u, k⟩ [] hs hk he1 rfl]

theorem assign_three_way_decision_witness :
    (assignCore [1] [1, 2] ⟨[], 1⟩ 1 5 2).1 = .inserted 2 ∧
    (assignCore [1] [1, 2]
      (assignCore [1] [1, 2] ⟨[], 1⟩ 1 5 2).2 1 5 2).1 = .alreadyAssigned :=
  (assign_three_way_decision [1] [1, 2] ⟨[], 1⟩ 1 5 2
    (by decide) (by decide)).2.2.2 (by decide)

/-- C3: whenever the assign handler succeeds with kind k (outcome inserted
or replaced), the rows of the user on the subject afterwards are exactly one
row carrying k, so the lookup returns k and never more than one row; and
from a state with no assignment, assigning kind A and then kind B (A ≠ B)
yields inserted A, then replaced A B, after which the lookup returns only
B. -/
theorem assign_success_leaves_single_row (subjects catalog : List Nat)
    (t : Table) (s u k : Nat) :
    (∀ o t', assignCore subjects catalog t s u k = (o, t') →
      (o = .inserted k ∨ ∃ k0, o = .replaced k0 k) →
      userRows t' s u = [⟨t.nextId, s, u, k⟩] ∧ getAssignment t' s u = some k) ∧
    (∀ A B, s ∈ subjects → A ∈ catalog → B ∈ catalog → A ≠ B →
      userRows t s u = [] →
      (assignCore subjects catalog t s u A).1 = .inserted A ∧
      (assignCore subjects catalog
        (assignCore subjects catalog t s u A).2 s u B).1 = .replaced A B ∧
      getAssignment
        (assignCore subjects catalog
          (assignCore subjects catalog t s u A).2 s u B).2 s u = some B) := by
  constructor
  · intro o t' heq hsucc
    by_cases hs : s ∈ subjects
    · by_cases hk : k ∈ catalog
      · rcases he : userRows t s u with _ | ⟨r, rest⟩
        · rw [assignCore_of_absent subjects catalog t s u k hs hk he] at heq
          injection heq with h1 h2
          subst h2
          constructor
          · exact userRows_after_fresh_insert t s u k he
          · simp [getAssignment, userRows_after_fresh_insert t s u k he]
        · by_cases hkind : r.kind = k
          · rw [assignCore_of_same_kind subjects catalog t s u k r rest hs hk he
              hkind] at heq
            injection heq with h1 h2
            subst h1
            simp at hsucc
          · rw [assignCore_of_other_kind subjects catalog t s u k r rest hs hk he
              hkind] at heq
            injection heq with h1 h2
            subst h2
            constructor
            · exact userRows_after_replace_insert t s u k
            · simp [getAssignment, userRows_after_replace_insert t s u k]
      · rw [assignCore_of_no_kind subjects catalog t s u k hk] at heq
        injection heq with h1 h2
        subst h1
        simp at hsucc
    · rw [assignCore_of_no_subject subjects catalog t s u k hs] at heq
      injection heq with h1 h2
      subst h1
      simp at hsucc
  · intro A B hs hA hB hne he
    have h1 := assignCore_of_absent subjects catalog t s u A hs hA he
    have he1 : userRows (insertRow t s u A) s u = [⟨t.nextId, s, u, A⟩] :=
      userRows_after_fresh_insert t s u A he
    have ht1 : (assignCore subjects catalog t s u A).2 = insertRow t s u A := by
      rw [h1]
    have h2 := assignCore_of_other_kind subjects catalog (insertRow t s u A) s u B
      ⟨t.nextId, s, u, A⟩ [] hs hB he1 hne
    refine ⟨by rw [h1], ?_, ?_⟩
    · rw [ht1, h2]
    · rw [ht1, h2]
      simp [getAssignment, userRows_after_replace_insert (insertRow t s u A) s u B]

theorem assign_success_leaves_single_row_witness :
    (assignCore [1] [1, 2] ⟨[], 1⟩ 1 5 1).1 = .inserted 1 ∧
    (assignCore [1] [1, 2]
      (assignCore [1] [1, 2] ⟨[], 1⟩ 1 5 1).2 1 5 2).1 = .replaced 1 2 ∧
    getAssignment
      (assignCore [1] [1, 2]
        (assignCore [1] [1, 2] ⟨[], 1⟩ 1 5 1).2 1 5 2).2 1 5 = some 2 :=
  (assign_success_leaves_single_row [1] [1, 2] ⟨[], 1⟩ 1 5 1).2 1 2
    (by decide) (by decide) (by decide) (by decide) (by decide)

/-- C5: with the subject present, the remove handler answers removed
exactly when the user had an assignment on the subject and the not-found
rejection otherwise; its resulting state never holds an assignment for the
pair; and after a fresh insert, removal answers removed and the subsequent
lookup is absent. -/
theorem remove_outcome_characterisation (subjects : List Nat) (t : Table)
    (s u : Nat) (hs : s ∈ subjects) :
    ((removeCore subjects t s u).1 = .removed ↔ userRows t s u ≠ []) ∧
    ((removeCore subjects t s u).1 = .nothingToRemove ↔ userRows t s u = []) ∧
    getAssignment (removeCore subjects t s u).2 s u = none ∧
    (∀ catalog k, k ∈ catalog → userRows t s u = [] →
      (assignCore subjects catalog t s u k).1 = .inserted k ∧
      (removeCore subjects (assignCore subjects catalog t s u k).2 s u).1 =
        .removed ∧
      getAssignment
        (removeCore subjects (assignCore subjects catalog t s u k).2 s u).2
        s u = none) := by
  have hga : ∀ t' : Table, getAssignment (deleteUserRows t' s u) s u = none :=
    fun t' => (getAssignment_eq_none_iff _ s u).2 (userRows_deleteUserRows t' s u)
  refine ⟨?_, ?_, ?_, ?_⟩
  · rcases he : userRows t s u with _ | ⟨r, rest⟩
    · rw [removeCore_of_absent subjects t s u hs he]
      simp
    · rw [removeCore_of_present subjects t s u hs (by simp [he])]
      simp
  · rcases he : userRows t s u with _ | ⟨r, rest⟩
    · rw [removeCore_of_absent subjects t s u hs he]
      simp
    · rw [removeCore_of_present subjects t s u hs (by simp [he])]
      simp
  · rcases he : userRows t s u with _ | ⟨r, rest⟩
    · rw [removeCore_of_absent subjects t s u hs he]
      exact hga t
    · rw [removeCore_of_present subjects t s u hs (by simp [he])]
      exact hga t
  · intro catalog k hk he
    have h1 := assignCore_of_absent subjects catalog t s u k hs hk he
    have ht1 : (assignCore subjects catalog t s u k).2 = insertRow t s u k := by
      rw [h1]
    have he1 : userRows (insertRow t s u k) s u = [⟨t.nextId, s, u, k⟩] :=
      userRows_after_fresh_insert t s u k he
    refine ⟨by rw [h1], ?_, ?_⟩
    · rw [ht1,
        removeCore_of_present subjects (insertRow t s u k) s u hs (by simp [he1])]
    · rw [ht1,
        removeCore_of_present subjects (insertRow t s u k) s u hs (by simp [he1])]
      exact hga (insertRow t s u k)

theorem remove_outcome_characterisation_witness :
    ((removeCore [1] ⟨[⟨0, 1, 5, 2⟩], 1⟩ 1 5).1 = .removed ↔
      userRows ⟨[⟨0, 1, 5, 2⟩], 1⟩ 1 5 ≠ []) ∧
    ((removeCore [1] ⟨[], 1⟩ 1 5).1 = .nothingToRemove ↔
      userRows (⟨[], 1⟩ : Table) 1 5 = []) ∧
    getAssignment (removeCore [1] ⟨[⟨0, 1, 5, 2⟩], 1⟩ 1 5).2 1 5 = none :=
  ⟨(remove_outcome_characterisation [1] ⟨[⟨0, 1, 5, 2⟩], 1⟩ 1 5 (by decide)).1,
   (remove_outcome_characterisation [1] ⟨[], 1⟩ 1 5 (by decide)).2.1,
   (remove_outcome_characterisation [1] ⟨[⟨0, 1, 5, 2⟩], 1⟩ 1 5 (by decide)).2.2.1⟩

/-- C6: when the subject does not exist or the requested kind is not in
the reaction catalog, the assign handler answers notFound and performs no
insert or delete (the table comes back untouched), and that outcome is a
different constructor from alreadyAssigned. -/
theorem assign_not_found_no_mutation (subjects catalog : List Nat)
    (t : Table) (s u k : Nat) (h : s ∉ subjects ∨ k ∉ catalog) :
    assignCore subjects catalog t s u k = (.notFound, t) ∧
    AssignOutcome.notFound ≠ AssignOutcome.alreadyAssigned := by
  refine ⟨?_, by simp⟩
  rcases h with hs | hk
  · exact assignCore_of_no_subject subjects catalog t s u k hs
  · exact assignCore_of_no_kind subjects catalog t s u k hk

theorem assign_not_found_no_mutation_witness :
    assignCore [1] [1, 2] ⟨[], 1⟩ 2 5 1 = (.notFound, ⟨[], 1⟩) ∧
    AssignOutcome.notFound ≠ AssignOutcome.alreadyAssigned :=
  assign_not_found_no_mutation [1] [1, 2] ⟨[], 1⟩ 2 5 1 (by decide)

/-- C9: the DELETE routes validate the reaction_id of the body but the handlers
never read it: two removal requests differing only in the
validation-accepted positive reaction_id produce identical responses and
final states, and the assignment of the user is deleted even when the named
kind differs from the held one. -/
theorem remove_ignores_body_kind (db : DB) (a u : Nat) (k1 k2 : Int)
    (h1 : reactionBodyValid k1 = true) (h2 : reactionBodyValid k2 = true) :
    removeArticleRoute db a u k1 = removeArticleRoute db a u k2 ∧
    removeCommentRoute db a u k1 = removeCommentRoute db a u k2 ∧
    (∀ r rest, a ∈ db.articles →
      userRows db.articleReactions a u = r :: rest →
      removeArticleRoute db a u k1 =
        some (.removed,
          { db with articleReactions := deleteUserRows db.articleReactions a u }) ∧
      getAssignment (deleteUserRows db.articleReactions a u) a u = none) := by
  refine ⟨by simp [removeArticleRoute, h1, h2],
    by simp [removeCommentRoute, h1, h2], ?_⟩
  intro r rest ha he
  have hrc := removeCore_of_present db.articles db.articleReactions a u ha
    (by simp [he])
  constructor
  · simp [removeArticleRoute, h1, removeArticleReaction, hrc]
  · exact (getAssignment_eq_none_iff _ a u).2
      (userRows_deleteUserRows db.articleReactions a u)

theorem remove_ignores_body_kind_witness :
    removeArticleRoute ⟨[1], [], [1, 2], ⟨[⟨0, 1, 5, 1⟩], 1⟩, ⟨[], 1⟩⟩ 1 5 2 =
      removeArticleRoute ⟨[1], [], [1, 2], ⟨[⟨0, 1, 5, 1⟩], 1⟩, ⟨[], 1⟩⟩ 1 5 7 ∧
    removeArticleRoute ⟨[1], [], [1, 2], ⟨[⟨0, 1, 5, 1⟩], 1⟩, ⟨[], 1⟩⟩ 1 5 2 =
      some (.removed,
        { articles := [1], comments := [], catalog := [1, 2],
          articleReactions := deleteUserRows ⟨[⟨0, 1, 5, 1⟩], 1⟩ 1 5,
          commentReactions := ⟨[], 1⟩ }) :=
  ⟨(remove_ignores_body_kind ⟨[1], [], [1, 2], ⟨[⟨0, 1, 5, 1⟩], 1⟩, ⟨[], 1⟩⟩
      1 5 2 7 (by decide) (by decide)).1,
   ((remove_ignores_body_kind ⟨[1], [], [1, 2], ⟨[⟨0, 1, 5, 1⟩], 1⟩, ⟨[], 1⟩⟩
      1 5 2 7 (by decide) (by decide)).2.2 ⟨0, 1, 5, 1⟩ [] (by decide)
      (by decide)).1⟩

/-- C10: from any starting state — including states violating the
single-assignment invariant with several rows for the (subject, user)
pair — a successful assign with a kind differing from the first existing
row differs, deletes ALL rows of the pair (the DELETE is not filtered by
kind) before inserting the single new row, so the post-state has exactly
one assignment for the pair. -/
theorem replace_deletes_all_pair_rows (subjects catalog : List Nat)
    (t : Table) (s u k : Nat) (r : Row) (rest : List Row)
    (hs : s ∈ subjects) (hk : k ∈ catalog)
    (he : userRows t s u = r :: rest) (hkind : r.kind ≠ k) :
    assignCore subjects catalog t s u k =
      (.replaced r.kind k, insertRow (deleteUserRows t s u) s u k) ∧
    userRows (assignCore subjects catalog t s u k).2 s u =
      [⟨t.nextId, s, u, k⟩] := by
  have h1 := assignCore_of_other_kind subjects catalog t s u k r rest hs hk he hkind
  refine ⟨h1, ?_⟩
  rw [h1]
  exact userRows_after_replace_insert t s u k

theorem replace_deletes_all_pair_rows_witness :
    assignCore [1] [1, 2, 3] ⟨[⟨0, 1, 5, 1⟩, ⟨1, 1, 5, 2⟩], 2⟩ 1 5 3 =
      (.replaced 1 3,
        insertRow (deleteUserRows ⟨[⟨0, 1, 5, 1⟩, ⟨1, 1, 5, 2⟩], 2⟩ 1 5) 1 5 3) ∧
    userRows
      (assignCore [1] [1, 2, 3] ⟨[⟨0, 1, 5, 1⟩, ⟨1, 1, 5, 2⟩], 2⟩ 1 5 3).2 1 5 =
      [⟨2, 1, 5, 3⟩] :=
  replace_deletes_all_pair_rows [1] [1, 2, 3]
    ⟨[⟨0, 1, 5, 1⟩, ⟨1, 1, 5, 2⟩], 2⟩ 1 5 3 ⟨0, 1, 5, 1⟩ [⟨1, 1, 5, 2⟩]
    (by decide) (by decide) (by decide) (by decide)

/-- C7: the aggregation query returns one entry per catalog kind, in
catalog order, whether or not a requesting identity is present; the count
of each entry is the number of current subject rows of that kind, never
depending on the requester; with no requesting identity every userReacted
flag is false; with a requesting identity present, the userReacted flag of
an entry is true exactly when that user holds that kind on the subject;
and concretely, after three users each assign a distinct kind to one
subject, it returns those three kinds with count 1 and the remaining
catalog kinds with count 0, and for requesting user 1 the flag is true on
the kind user 1 holds and false on every other kind. -/
theorem aggregation_contract (catalog : List Nat) (t : Table) (s : Nat) :
    ((aggregateReactions catalog t s none).map AggRow.kind = catalog) ∧
    (∀ e ∈ aggregateReactions catalog t s none, e.userReacted = false) ∧
    (∀ e ∈ aggregateReactions catalog t s none,
      e.count =
        (t.rows.filter (fun r => r.kind == e.kind && r.subj == s)).length) ∧
    (∀ u, (aggregateReactions catalog t s (some u)).map AggRow.kind = catalog) ∧
    (∀ u, ∀ e ∈ aggregateReactions catalog t s (some u),
      e.count =
        (t.rows.filter (fun r => r.kind == e.kind && r.subj == s)).length) ∧
    (∀ u, ∀ e ∈ aggregateReactions catalog t s (some u),
      (e.userReacted = true ↔
        ∃ r ∈ t.rows, r.kind = e.kind ∧ r.subj = s ∧ r.user = u)) ∧
    (aggregateReactions [1, 2, 3, 4, 5, 6, 7]
        (execTrace ⟨[1], [], [1, 2, 3, 4, 5, 6, 7], ⟨[], 1⟩, ⟨[], 1⟩⟩
          [.assignArticle 1 1 1, .assignArticle 1 2 2,
           .assignArticle 1 3 3]).articleReactions 1 none =
      [⟨1, 1, false⟩, ⟨2, 1, false⟩, ⟨3, 1, false⟩, ⟨4, 0, false⟩,
       ⟨5, 0, false⟩, ⟨6, 0, false⟩, ⟨7, 0, false⟩]) ∧
    (aggregateReactions [1, 2, 3, 4, 5, 6, 7]
        (execTrace ⟨[1], [], [1, 2, 3, 4, 5, 6, 7], ⟨[], 1⟩, ⟨[], 1⟩⟩
          [.assignArticle 1 1 1, .assignArticle 1 2 2,
           .assignArticle 1 3 3]).articleReactions 1 (some 1) =
      [⟨1, 1, true⟩, ⟨2, 1, false⟩, ⟨3, 1, false⟩, ⟨4, 0, false⟩,
       ⟨5, 0, false⟩, ⟨6, 0, false⟩, ⟨7, 0, false⟩]) := by
  refine ⟨?_, ?_, ?_, ?_, ?_, ?_, by decide, by decide⟩
  · induction catalog with
    | nil => rfl
    | cons a l ih => simpa [aggregateReactions] using ih
  · intro e he
    simp only [aggregateReactions, List.mem_map] at he
    obtain ⟨k, _, he⟩ := he
    subst he
    rfl
  · intro e he
    simp only [aggregateReactions, List.mem_map] at he
    obtain ⟨k, _, he⟩ := he
    subst he
    rfl
  · intro u
    induction catalog with
    | nil => rfl
    | cons a l ih => simpa [aggregateReactions] using ih
  · intro u e he
    simp only [aggregateReactions, List.mem_map] at he
    obtain ⟨k, _, he⟩ := he
    subst he
    rfl
  · intro u e he
    simp only [aggregateReactions, List.mem_map] at he
    obtain ⟨k, _, he⟩ := he
    subst he
    simp only [List.any_eq_true, Bool.and_eq_true, beq_iff_eq]
    constructor
    · rintro ⟨r, hr, ⟨hk, hsj⟩, hu⟩
      exact ⟨r, hr, hk, hsj, hu⟩
    · rintro ⟨r, hr, hk, hsj, hu⟩
      exact ⟨r, hr, ⟨hk, hsj⟩, hu⟩

/-- C4 counterexample: the replace path issues its DELETE and its INSERT
as two separate statements with no transaction.  Interleaving two replace
requests (both SELECT, both DELETE, both INSERT; every single statement
atomic, each INSERT passing the schema check
UNIQUE(article_id, user_id, reaction_id) check) ends with TWO rows for the
one (subject, user) pair: the delete+insert pair is not atomic and the
uniqueness invariant ends up violated. -/
theorem replace_pair_not_atomic_counterexample :
    (runSched ⟨[⟨0, 1, 1, 3⟩], 1⟩ (mkSession 1 1 1) (mkSession 1 1 2)
        [false, true, false, true, false, true]).1.rows =
      [⟨1, 1, 1, 1⟩, ⟨2, 1, 1, 2⟩] ∧
    (runSched ⟨[⟨0, 1, 1, 3⟩], 1⟩ (mkSession 1 1 1) (mkSession 1 1 2)
        [false, true, false, true, false, true]).2.1.phase =
      .finished (.replaced 3 1) ∧
    (runSched ⟨[⟨0, 1, 1, 3⟩], 1⟩ (mkSession 1 1 1) (mkSession 1 1 2)
        [false, true, false, true, false, true]).2.2.phase =
      .finished (.replaced 3 2) ∧
    ¬atMostOnePerUser
      (runSched ⟨[⟨0, 1, 1, 3⟩], 1⟩ (mkSession 1 1 1) (mkSession 1 1 2)
        [false, true, false, true, false, true]).1.rows := by decide

/-- C4 amended: in the replace case the handler performs the DELETE and
then the INSERT as two separate statements in that order (the resulting
table is the composition of insertRow after deleteUserRows); under
sequential execution both the intermediate state after the delete and the
final state satisfy the uniqueness invariant.  The pair is not atomic: see
the interleaving counterexample. -/
theorem replace_delete_before_insert_sequentially_safe
    (subjects catalog : List Nat) (t : Table) (s u k : Nat) (r : Row)
    (rest : List Row) (hs : s ∈ subjects) (hk : k ∈ catalog)
    (he : userRows t s u = r :: rest) (hkind : r.kind ≠ k)
    (hinv : atMostOnePerUser t.rows) :
    (assignCore subjects catalog t s u k).2 =
      insertRow (deleteUserRows t s u) s u k ∧
    atMostOnePerUser (deleteUserRows t s u).rows ∧
    atMostOnePerUser (assignCore subjects catalog t s u k).2.rows := by
  have h1 := assignCore_of_other_kind subjects catalog t s u k r rest hs hk he hkind
  refine ⟨by rw [h1], deleteUserRows_preserves t s u hinv, ?_⟩
  rw [h1]
  exact replace_preserves t s u k hinv

theorem replace_delete_before_insert_sequentially_safe_witness :
    (assignCore [1] [1, 2] ⟨[⟨0, 1, 5, 1⟩], 1⟩ 1 5 2).2 =
      insertRow (deleteUserRows ⟨[⟨0, 1, 5, 1⟩], 1⟩ 1 5) 1 5 2 ∧
    atMostOnePerUser (deleteUserRows (⟨[⟨0, 1, 5, 1⟩], 1⟩ : Table) 1 5).rows ∧
    atMostOnePerUser (assignCore [1] [1, 2] ⟨[⟨0, 1, 5, 1⟩], 1⟩ 1 5 2).2.rows :=
  replace_delete_before_insert_sequentially_safe [1] [1, 2]
    ⟨[⟨0, 1, 5, 1⟩], 1⟩ 1 5 2 ⟨0, 1, 5, 1⟩ []
    (by decide) (by decide) (by decide) (by decide) (by decide)

/-- C8: at the failing input both racing requests run their SELECT before
either INSERTs; because the UNIQUE key of the schema is
(article_id, user_id, reaction_id) — it includes the reaction kind — with
different kinds neither INSERT conflicts, both succeed, and two rows
persist for the same user and subject, contradicting the claim that the
constraint rejects the losing insert.  The key rejects only a same-kind
duplicate. -/
theorem race_two_rows_persist :
    (runSched ⟨[], 1⟩ (mkSession 1 1 1) (mkSession 1 1 2)
        [false, true, false, true]).1.rows = [⟨1, 1, 1, 1⟩, ⟨2, 1, 1, 2⟩] ∧
    (runSched ⟨[], 1⟩ (mkSession 1 1 1) (mkSession 1 1 2)
        [false, true, false, true]).2.1.phase = .finished (.inserted 1) ∧
    (runSched ⟨[], 1⟩ (mkSession 1 1 1) (mkSession 1 1 2)
        [false, true, false, true]).2.2.phase = .finished (.inserted 2) ∧
    ¬atMostOnePerUser
      (runSched ⟨[], 1⟩ (mkSession 1 1 1) (mkSession 1 1 2)
        [false, true, false, true]).1.rows ∧
    uniqueConflict ⟨[⟨1, 1, 1, 1⟩], 2⟩ 1 1 1 = true ∧
    uniqueConflict ⟨[⟨1, 1, 1, 1⟩], 2⟩ 1 1 2 = false := by decide

end ArticleHub
